import Mathlib

/-!
Verification of the MEDISCOPE lab microservice
(`src/MEDISCOPE/Server/LabMicroservice.py`).

The Python module is shallowly embedded below.  External effects (the
EasyOCR reader, PyMuPDF page extraction, the Gemini remote call, the
filesystem) are modelled as oracles passed in as explicit arguments: the
oracle value records what the external world would do on this request,
and the embedded functions compute exactly what the Python code computes
from those outcomes.  An exception raised by external code is an oracle
outcome; the embedding propagates or catches it exactly where the Python
`try`/`except` blocks do.
-/

/-- Python whitespace test for `str.strip` (ASCII range, which is all the
strings in this program use). -/
def pySpace (c : Char) : Bool :=
  c = ' ' || c = '\t' || c = '\n' || c = '\r' || c = '\x0b' || c = '\x0c'

/-- The characters of a string after Python `str.strip`: drop whitespace
from both ends. -/
def trimChars (l : List Char) : List Char :=
  ((l.dropWhile pySpace).reverse.dropWhile pySpace).reverse

/-- Python `s.strip()`. -/
def pyStrip (s : String) : String := ⟨trimChars s.data⟩

/-- Python `s.lower()` (ASCII case folding, which is all this program needs:
extensions are ASCII). -/
def pyLower (s : String) : String := ⟨s.data.map Char.toLower⟩

/-- Python `s[:n]` for a nonnegative literal `n`: the first `n` characters. -/
def pyTake (n : Nat) (s : String) : String := ⟨s.data.take n⟩

/-- Index of the last occurrence of a character class in a list, or `-1`
when absent — Python `str.rfind`. -/
def rfindIdx (p : Char → Bool) (cs : List Char) : Int :=
  match cs.reverse.findIdx? p with
  | some i => (cs.length : Int) - 1 - (i : Int)
  | none => -1

/-- Python `os.path.splitext(path)[1]` (posixpath): the extension starting at
the last dot of the final path component, empty when that component has no
dot or consists only of leading dots before it. -/
def splitextExt (path : String) : String :=
  let cs := path.data
  let sepIndex := rfindIdx (· == '/') cs
  let dotIndex := rfindIdx (· == '.') cs
  if sepIndex < dotIndex then
    if (((cs.drop (sepIndex + 1).toNat).take (dotIndex - sepIndex - 1).toNat).any
        (· != '.')) then
      ⟨cs.drop dotIndex.toNat⟩
    else ""
  else ""

/-- The raster-image extension list of `extract_text`. -/
def imageExts : List String := [".jpg", ".jpeg", ".png", ".bmp", ".tiff"]

/-- Python `"\n".join(l)`. -/
def sepJoin : List String → String
  | [] => ""
  | [s] => s
  | s :: rest => s ++ "\n" ++ sepJoin rest

/-- Concatenation of a list of strings (Python `+=` accumulation). -/
def concatStrs : List String → String
  | [] => ""
  | s :: rest => s ++ concatStrs rest

/-- Outcome of `ocr_reader.readtext(file_path, detail=0)`: the recognized
lines, or an exception raised anywhere in the guarded image branch
(including lazy construction of the reader). -/
inductive OcrOutcome where
  | ok (lines : List String)
  | raises (msg : String)
deriving DecidableEq, Repr

/-- Outcome of `fitz.open(file_path)` plus `page.get_text("text")` over the
document: the per-page text layers in page order, or an exception raised
anywhere in the guarded document branch. -/
inductive PdfOutcome where
  | ok (pages : List String)
  | raises (msg : String)
deriving DecidableEq, Repr

/-- What the external OCR and PDF capabilities would do on one file. -/
structure ExtractOracle where
  ocr : OcrOutcome
  pdf : PdfOutcome
deriving DecidableEq, Repr

/-- `extract_text(file_path)`.  The extension routes to OCR or PDF
extraction; every exception in the guarded block is caught and turned into
an error-marker string (returned without stripping), and the success path
returns `text.strip()`. -/
def extract_text (o : ExtractOracle) (file_path : String) : String :=
  if pyLower (splitextExt file_path) ∈ imageExts then
    match o.ocr with
    | .ok lines => pyStrip (if lines = [] then "[No text]" else sepJoin lines)
    | .raises e => "[Error extracting text: " ++ e ++ "]"
  else
    match o.pdf with
    | .ok pages => pyStrip (concatStrs (pages.map (fun pg => pg ++ "\n")))
    | .raises e => "[Error extracting text: " ++ e ++ "]"

/-- The response object of `model.generate_content`: whether it has a
`text` attribute, and that text. -/
structure GeminiResp where
  hasText : Bool
  text : String
deriving DecidableEq, Repr

/-- Outcome of the guarded Gemini block for a given prompt: a response
object, or an exception raised anywhere in the `try` block. -/
inductive GeminiOutcome where
  | ok (resp : GeminiResp)
  | raises (msg : String)
deriving DecidableEq, Repr

/-- The fixed instruction text prepended to the truncated report text. -/
def instrText : String := "Summarize this medical report simply:\n\n"

/-- Result of `summarize_with_gemini`: the returned string and, when a
remote call was issued, the outbound prompt (`sent = none` means no call
was made). -/
structure SummOut where
  result : String
  sent : Option String
deriving DecidableEq, Repr

/-- `summarize_with_gemini(text)`.  Short-circuits on blank text; otherwise
sends the instruction plus `text[:4000]` and returns the stripped response
text, a "[No summary]" sentinel when the response has no text attribute, or
a "[Gemini failed: ...]" string when the guarded block raises. -/
def summarize_with_gemini (call : String → GeminiOutcome) (text : String) : SummOut :=
  if pyStrip text = "" then ⟨"[No content to summarize]", none⟩
  else
    match call (instrText ++ pyTake 4000 text) with
    | .ok r =>
        ⟨if r.hasText then pyStrip r.text else "[No summary]",
         some (instrText ++ pyTake 4000 text)⟩
    | .raises e =>
        ⟨"[Gemini failed: " ++ e ++ "]", some (instrText ++ pyTake 4000 text)⟩

/-- Outcome of `f.save(path)` for one uploaded file: success; an exception
raised after the destination file has been created (e.g. a write error
mid-copy); or an exception raised before any file exists at the
destination. -/
inductive SaveOutcome where
  | ok
  | raiseAfterCreate
  | raiseBeforeCreate
deriving DecidableEq, Repr

/-- One entry of `request.files.getlist("files")`: the client-supplied
filename, what saving it to disk would do, and what the external
extraction capabilities would read from its saved content. -/
structure UploadedFile where
  filename : String
  save : SaveOutcome
  ex : ExtractOracle
deriving DecidableEq, Repr

/-- The parts of a `POST /parse` request the handler inspects:
`request.form["file_path"]` when present, and the uploaded files
(`"files" in request.files` holds exactly when the list is nonempty). -/
structure PyRequest where
  file_path : Option String
  files : List UploadedFile
deriving DecidableEq, Repr

/-- JSON values, as produced by `jsonify`. -/
inductive Json where
  | str (s : String)
  | num (n : Nat)
  | obj (fields : List (String × Json))
deriving Repr

/-- The upload directory `UPLOAD_FOLDER = "./uploads"`. -/
def UPLOAD_FOLDER : String := "./uploads"

/-- `os.path.join(dir, name)` for a relative `name`, the only shape this
program produces (`secure_filename` never returns an absolute path). -/
def joinPath (dir name : String) : String := dir ++ "/" ++ name

/-- The upload-directory path a file is saved to:
`os.path.join(app.config["UPLOAD_FOLDER"], secure_filename(f.filename))`. -/
def pathOf (san : String → String) (f : UploadedFile) : String :=
  joinPath UPLOAD_FOLDER (san f.filename)

/-- The text extracted from one uploaded file at its saved path. -/
def textOf (san : String → String) (f : UploadedFile) : String :=
  extract_text f.ex (pathOf san f)

/-- The f-string section `f"\n=== {filename} ===\n{text}\n"` appended to
`combined_text` for one file. -/
def sectionStr (name text : String) : String :=
  "\n=== " ++ name ++ " ===\n" ++ text ++ "\n"

/-- The combined-buffer section contributed by one uploaded file. -/
def sectionOf (san : String → String) (f : UploadedFile) : String :=
  sectionStr (san f.filename) (textOf san f)

/-- Python dict assignment `d[k] = v`: update the existing entry in place
or append a new one. -/
def dictInsert (k : String) (v : Nat) : List (String × Nat) → List (String × Nat)
  | [] => [(k, v)]
  | (k', v') :: rest =>
      if k' = k then (k, v) :: rest else (k', v') :: dictInsert k v rest

/-- Dict lookup `d[k]` (as an `Option`). -/
def lookupD : List (String × Nat) → String → Option Nat
  | [], _ => none
  | (k, v) :: rest, a => if k = a then some v else lookupD rest a

/-- `os.remove(path)`: delete one occurrence of `path` from the set of
files present in the upload directory. -/
def eraseOne : List String → String → List String
  | [], _ => []
  | a :: rest, b => if a = b then rest else a :: eraseOne rest b

/-- State of the upload-mode per-file loop when it finishes or when an
exception escapes it: whether an exception propagated, the files present
in the upload directory, the combined buffer, the diagnostics dict, and
the paths extraction ran on. -/
structure LoopOut where
  raised : Bool
  saved : List String
  combined : String
  diag : List (String × Nat)
  extracted : List String
deriving DecidableEq, Repr

/-- The upload-mode loop of `parse`: for each file, save it, extract its
text, append its labeled section, record its diagnostics entry, and delete
the saved file.  A save that raises aborts the loop with the exception
propagating and the upload directory in its state at that point. -/
def processFiles (san : String → String) :
    List UploadedFile → List String → String → List (String × Nat) → List String → LoopOut
  | [], saved, combined, diag, extracted => ⟨false, saved, combined, diag, extracted⟩
  | f :: rest, saved, combined, diag, extracted =>
    match f.save with
    | .raiseBeforeCreate => ⟨true, saved, combined, diag, extracted⟩
    | .raiseAfterCreate => ⟨true, saved ++ [pathOf san f], combined, diag, extracted⟩
    | .ok =>
        processFiles san rest (eraseOne (saved ++ [pathOf san f]) (pathOf san f))
          (combined ++ sectionStr (san f.filename) (textOf san f))
          (dictInsert (san f.filename) (textOf san f).length diag)
          (extracted ++ [pathOf san f])

/-- The diagnostics dict as a JSON object. -/
def diagJson (diag : List (String × Nat)) : Json :=
  .obj (diag.map (fun kv => (kv.1, .num kv.2)))

/-- Observable outcome of one `parse` request: the HTTP result (or a
propagated exception), the files left in the upload directory, the paths
extraction ran on, the text handed to `summarize_with_gemini` (when it was
called), the outbound prompt (when a remote call was issued), and the
diagnostics dict. -/
structure ParseRun where
  result : Except Unit (Nat × Json)
  savedFiles : List String
  extractedPaths : List String
  summaryInput : Option String
  promptSent : Option String
  diagnostics : List (String × Nat)

/-- The `POST /parse` handler.  `fsExists` models `os.path.exists`, `call`
the Gemini service, `san` is `werkzeug.utils.secure_filename` (external
code, passed as an opaque function), and `pathEx` the extraction outcome
for the path-mode file. -/
def parse (fsExists : String → Bool) (call : String → GeminiOutcome)
    (san : String → String) (pathEx : ExtractOracle) (req : PyRequest) : ParseRun :=
  match req.file_path with
  | some fp =>
    if fsExists fp then
      { result := .ok (200, .obj [("message", .str "Parsed (from path)"),
          ("summary", .str (summarize_with_gemini call (extract_text pathEx fp)).result)]),
        savedFiles := [], extractedPaths := [fp],
        summaryInput := some (extract_text pathEx fp),
        promptSent := (summarize_with_gemini call (extract_text pathEx fp)).sent,
        diagnostics := [] }
    else
      { result := .ok (400, .obj [("error", .str ("File not found: " ++ fp))]),
        savedFiles := [], extractedPaths := [],
        summaryInput := none, promptSent := none, diagnostics := [] }
  | none =>
    match req.files with
    | [] =>
      { result := .ok (400, .obj [("error", .str "No files or file_path provided")]),
        savedFiles := [], extractedPaths := [],
        summaryInput := none, promptSent := none, diagnostics := [] }
    | f :: rest =>
      if (processFiles san (f :: rest) [] "" [] []).raised then
        { result := .error (),
          savedFiles := (processFiles san (f :: rest) [] "" [] []).saved,
          extractedPaths := (processFiles san (f :: rest) [] "" [] []).extracted,
          summaryInput := none, promptSent := none,
          diagnostics := (processFiles san (f :: rest) [] "" [] []).diag }
      else
        { result := .ok (200, .obj [("message", .str "Parsed successfully"),
            ("diagnostics", diagJson (processFiles san (f :: rest) [] "" [] []).diag),
            ("summary", .str (summarize_with_gemini call
              (processFiles san (f :: rest) [] "" [] []).combined).result)]),
          savedFiles := (processFiles san (f :: rest) [] "" [] []).saved,
          extractedPaths := (processFiles san (f :: rest) [] "" [] []).extracted,
          summaryInput := some (processFiles san (f :: rest) [] "" [] []).combined,
          promptSent := (summarize_with_gemini call
            (processFiles san (f :: rest) [] "" [] []).combined).sent,
          diagnostics := (processFiles san (f :: rest) [] "" [] []).diag }

/-- The diagnostics dict accumulated over a list of files, in processing
order. -/
def foldDiag (san : String → String) : List UploadedFile → List (String × Nat) → List (String × Nat)
  | [], d => d
  | f :: rest, d => foldDiag san rest (dictInsert (san f.filename) (textOf san f).length d)

/-- The extracted-text length of the last file in the list whose sanitized
filename is `k`, when one exists. -/
def lastTextLen (san : String → String) (k : String) : List UploadedFile → Option Nat
  | [] => none
  | f :: rest =>
    match lastTextLen san k rest with
    | some n => some n
    | none => if san f.filename = k then some (textOf san f).length else none

/-! ### String helper lemmas -/

theorem strData_append (a b : String) : (a ++ b).data = a.data ++ b.data := by
  cases a; cases b; rfl

theorem str_assoc (a b c : String) : a ++ b ++ c = a ++ (b ++ c) := by
  cases a; cases b; cases c
  show String.mk _ = String.mk _
  simp [strData_append, List.append_assoc]

theorem str_empty_append (s : String) : "" ++ s = s := by
  cases s; rfl

theorem str_append_empty (s : String) : s ++ "" = s := by
  cases s
  show String.mk _ = String.mk _
  simp [strData_append]

theorem str_ne_empty_of_data (s : String) (h : s.data ≠ []) : s ≠ "" := by
  intro he
  apply h
  rw [he]

theorem mem_dropWhile_of_mem {p : Char → Bool} {c : Char} (hc : p c = false) :
    ∀ {l : List Char}, c ∈ l → c ∈ l.dropWhile p := by
  intro l
  induction l with
  | nil => intro h; exact absurd h (List.not_mem_nil c)
  | cons a t ih =>
    intro h
    by_cases ha : p a = true
    · rw [List.dropWhile_cons_of_pos ha]
      rcases List.mem_cons.mp h with h1 | h2
      · exact absurd (h1 ▸ hc) (by simp [ha])
      · exact ih h2
    · rw [List.dropWhile_cons_of_neg ha]
      exact h

/-- A string containing a non-whitespace character does not strip to the
empty string. -/
theorem pyStrip_ne_empty {s : String} {c : Char} (hm : c ∈ s.data)
    (hc : pySpace c = false) : pyStrip s ≠ "" := by
  apply str_ne_empty_of_data
  show trimChars s.data ≠ []
  unfold trimChars
  apply List.ne_nil_of_mem (a := c)
  rw [List.mem_reverse]
  exact mem_dropWhile_of_mem hc (List.mem_reverse.mpr (mem_dropWhile_of_mem hc hm))

/-! ### Diagnostics-dict lemmas -/

theorem lookupD_dictInsert_self (k : String) (v : Nat) (d : List (String × Nat)) :
    lookupD (dictInsert k v d) k = some v := by
  induction d with
  | nil => simp [dictInsert, lookupD]
  | cons kv rest ih =>
    by_cases h : kv.1 = k
    · simp [dictInsert, h, lookupD]
    · simp [dictInsert, h, lookupD, ih]

theorem lookupD_dictInsert_ne {k k' : String} (v : Nat) (d : List (String × Nat))
    (h : k ≠ k') : lookupD (dictInsert k v d) k' = lookupD d k' := by
  induction d with
  | nil => simp [dictInsert, lookupD, h]
  | cons kv rest ih =>
    by_cases hk : kv.1 = k
    · simp [dictInsert, hk, lookupD, h]
    · simp [dictInsert, hk, lookupD, ih]

theorem lookupD_foldDiag (san : String → String) (k : String) :
    ∀ (files : List UploadedFile) (d : List (String × Nat)),
      lookupD (foldDiag san files d) k =
        (match lastTextLen san k files with
         | some n => some n
         | none => lookupD d k) := by
  intro files
  induction files with
  | nil => intro d; simp [foldDiag, lastTextLen]
  | cons f rest ih =>
    intro d
    rw [foldDiag, ih, lastTextLen]
    cases lastTextLen san k rest with
    | some n => simp
    | none =>
      by_cases hk : san f.filename = k
      · rw [if_pos hk, hk]
        exact lookupD_dictInsert_self _ _ _
      · rw [if_neg hk]
        exact lookupD_dictInsert_ne _ _ hk

theorem lookupD_foldDiag_nil (san : String → String) (k : String)
    (files : List UploadedFile) :
    lookupD (foldDiag san files []) k = lastTextLen san k files := by
  rw [lookupD_foldDiag]
  cases lastTextLen san k files <;> simp [lookupD]

theorem keys_dictInsert (k : String) (v : Nat) (d : List (String × Nat)) :
    (dictInsert k v d).map Prod.fst =
      if k ∈ d.map Prod.fst then d.map Prod.fst else d.map Prod.fst ++ [k] := by
  induction d with
  | nil => simp [dictInsert]
  | cons kv rest ih =>
    by_cases hk : kv.1 = k
    · simp [dictInsert, hk]
    · have hne : k ≠ kv.1 := fun h => hk h.symm
      by_cases hm : k ∈ rest.map Prod.fst
      · simp [dictInsert, hk, ih, hm, hne]
      · simp [dictInsert, hk, ih, hm, hne]

theorem nodup_append_singleton {l : List String} {a : String}
    (h : l.Nodup) (ha : a ∉ l) : (l ++ [a]).Nodup := by
  rw [List.nodup_append]
  refine ⟨h, List.nodup_singleton a, ?_⟩
  intro x hx hxa
  rw [List.mem_singleton] at hxa
  subst hxa
  exact ha hx

theorem nodup_keys_dictInsert (k : String) (v : Nat) (d : List (String × Nat))
    (h : (d.map Prod.fst).Nodup) : ((dictInsert k v d).map Prod.fst).Nodup := by
  rw [keys_dictInsert]
  by_cases hm : k ∈ d.map Prod.fst
  · simpa [hm] using h
  · simpa [hm] using nodup_append_singleton h hm

theorem nodup_keys_foldDiag (san : String → String) :
    ∀ (files : List UploadedFile) (d : List (String × Nat)),
      (d.map Prod.fst).Nodup → ((foldDiag san files d).map Prod.fst).Nodup := by
  intro files
  induction files with
  | nil => intro d h; exact h
  | cons f rest ih =>
    intro d h
    exact ih _ (nodup_keys_dictInsert _ _ _ h)

theorem length_dictInsert_le (k : String) (v : Nat) (d : List (String × Nat)) :
    (dictInsert k v d).length ≤ d.length + 1 := by
  induction d with
  | nil => simp [dictInsert]
  | cons kv rest ih =>
    by_cases hk : kv.1 = k
    · simp [dictInsert, hk]
    · simp only [dictInsert, if_neg hk, List.length_cons]
      omega

theorem length_dictInsert_of_mem {k : String} (v : Nat) {d : List (String × Nat)}
    (h : k ∈ d.map Prod.fst) : (dictInsert k v d).length = d.length := by
  induction d with
  | nil => simp at h
  | cons kv rest ih =>
    by_cases hk : kv.1 = k
    · simp [dictInsert, hk]
    · have hmem : k ∈ rest.map Prod.fst := by
        rw [List.map_cons] at h
        rcases List.mem_cons.mp h with h1 | h2
        · exact absurd h1.symm hk
        · exact h2
      simp [dictInsert, hk, ih hmem]

theorem mem_keys_dictInsert_self (k : String) (v : Nat) (d : List (String × Nat)) :
    k ∈ (dictInsert k v d).map Prod.fst := by
  rw [keys_dictInsert]
  by_cases hm : k ∈ d.map Prod.fst
  · rw [if_pos hm]
    exact hm
  · rw [if_neg hm]
    exact List.mem_append_right _ (List.mem_singleton.mpr rfl)

theorem mem_keys_dictInsert_of_mem {a k : String} (v : Nat) {d : List (String × Nat)}
    (h : a ∈ d.map Prod.fst) : a ∈ (dictInsert k v d).map Prod.fst := by
  rw [keys_dictInsert]
  by_cases hm : k ∈ d.map Prod.fst
  · rw [if_pos hm]
    exact h
  · rw [if_neg hm]
    exact List.mem_append_left _ h

theorem length_foldDiag_le (san : String → String) :
    ∀ (files : List UploadedFile) (d : List (String × Nat)),
      (foldDiag san files d).length ≤ d.length + files.length := by
  intro files
  induction files with
  | nil => intro d; simp [foldDiag]
  | cons f rest ih =>
    intro d
    have h1 := ih (dictInsert (san f.filename) (textOf san f).length d)
    have h2 := length_dictInsert_le (san f.filename) (textOf san f).length d
    rw [foldDiag]
    simp only [List.length_cons]
    omega

theorem length_foldDiag_lt_of_mem (san : String → String) :
    ∀ (files : List UploadedFile) (d : List (String × Nat)),
      (∃ f ∈ files, san f.filename ∈ d.map Prod.fst) →
      (foldDiag san files d).length < d.length + files.length := by
  intro files
  induction files with
  | nil => intro d h; simp at h
  | cons f rest ih =>
    intro d h
    obtain ⟨g, hg, hkey⟩ := h
    rw [foldDiag]
    simp only [List.length_cons]
    rcases List.mem_cons.mp hg with h1 | h2
    · have heq : (dictInsert (san f.filename) (textOf san f).length d).length = d.length := by
        apply length_dictInsert_of_mem
        exact h1 ▸ hkey
      have := length_foldDiag_le san rest (dictInsert (san f.filename) (textOf san f).length d)
      omega
    · have hlt := ih (dictInsert (san f.filename) (textOf san f).length d)
        ⟨g, h2, mem_keys_dictInsert_of_mem _ hkey⟩
      have := length_dictInsert_le (san f.filename) (textOf san f).length d
      omega

theorem length_foldDiag_lt_of_dup (san : String → String) :
    ∀ (files : List UploadedFile) (d : List (String × Nat)),
      ¬ (files.map (fun f => san f.filename)).Nodup →
      (foldDiag san files d).length < d.length + files.length := by
  intro files
  induction files with
  | nil => intro d h; simp at h
  | cons f rest ih =>
    intro d h
    rw [foldDiag]
    simp only [List.length_cons]
    rw [List.map_cons, List.nodup_cons] at h
    push_neg at h
    by_cases hnd : (rest.map (fun f => san f.filename)).Nodup
    · have hmem : san f.filename ∈ rest.map (fun f => san f.filename) := by
        by_contra hnm
        exact h hnm hnd
      obtain ⟨g, hg, hgeq⟩ := List.mem_map.mp hmem
      have hlt := length_foldDiag_lt_of_mem san rest
        (dictInsert (san f.filename) (textOf san f).length d)
        ⟨g, hg, by rw [hgeq]; exact mem_keys_dictInsert_self _ _ _⟩
      have := length_dictInsert_le (san f.filename) (textOf san f).length d
      omega
    · have hlt := ih (dictInsert (san f.filename) (textOf san f).length d) hnd
      have := length_dictInsert_le (san f.filename) (textOf san f).length d
      omega

/-! ### Upload-loop lemmas -/

theorem eraseOne_append_singleton (p : String) :
    eraseOne ([] ++ [p]) p = [] := by
  simp [eraseOne]

/-- If the per-file loop finished without an exception, every file's save
succeeded. -/
theorem processFiles_no_raise_all_ok (san : String → String) :
    ∀ (files : List UploadedFile) (saved : List String) (c : String)
      (d : List (String × Nat)) (e : List String),
      (processFiles san files saved c d e).raised = false →
      ∀ f ∈ files, f.save = .ok := by
  intro files
  induction files with
  | nil => intro saved c d e _ f hf; exact absurd hf (List.not_mem_nil f)
  | cons g rest ih =>
    intro saved c d e hr f hf
    rcases List.mem_cons.mp hf with h1 | h2
    · subst h1
      cases hs : f.save with
      | ok => rfl
      | raiseAfterCreate => rw [processFiles, hs] at hr; simp at hr
      | raiseBeforeCreate => rw [processFiles, hs] at hr; simp at hr
    · cases hs : g.save with
      | ok =>
        rw [processFiles, hs] at hr
        exact ih _ _ _ _ hr f h2
      | raiseAfterCreate => rw [processFiles, hs] at hr; simp at hr
      | raiseBeforeCreate => rw [processFiles, hs] at hr; simp at hr

/-- The full behaviour of the per-file loop when every save succeeds,
starting from an empty upload directory: no exception, the directory is
empty again at the end, the combined buffer is extended by each file's
labeled section in order, the diagnostics dict is the fold of the
per-file insertions, and extraction ran on every file's saved path in
order. -/
theorem processFiles_ok (san : String → String) :
    ∀ (files : List UploadedFile) (c : String) (d : List (String × Nat))
      (e : List String), (∀ f ∈ files, f.save = .ok) →
      processFiles san files [] c d e =
        ⟨false, [], c ++ concatStrs (files.map (sectionOf san)),
         foldDiag san files d, e ++ files.map (pathOf san)⟩ := by
  intro files
  induction files with
  | nil =>
    intro c d e _
    simp [processFiles, concatStrs, foldDiag, str_append_empty]
  | cons f rest ih =>
    intro c d e hok
    have hf : f.save = .ok := hok f (List.mem_cons_self f rest)
    rw [processFiles, hf, eraseOne_append_singleton,
      ih _ _ _ (fun g hg => hok g (List.mem_cons_of_mem f hg))]
    simp only [List.map_cons, concatStrs, foldDiag, sectionOf, str_assoc,
      List.append_assoc, List.singleton_append, List.cons_append, List.nil_append]

/-- When the text is not blank, `summarize_with_gemini` always issues the
remote call, with the fixed instruction plus the 4000-character prefix. -/
theorem summarize_sent_of_ne (call : String → GeminiOutcome) (text : String)
    (h : pyStrip text ≠ "") :
    (summarize_with_gemini call text).sent = some (instrText ++ pyTake 4000 text) := by
  unfold summarize_with_gemini
  rw [if_neg h]
  cases call (instrText ++ pyTake 4000 text) with
  | ok r => rfl
  | raises e => rfl

/-- Every labeled section contains the non-whitespace label character. -/
theorem eq_char_mem_sectionStr (name text : String) : '=' ∈ (sectionStr name text).data := by
  unfold sectionStr
  simp only [strData_append]
  apply List.mem_append_left
  apply List.mem_append_left
  apply List.mem_append_left
  apply List.mem_append_left
  decide

/-! ### The claims -/

/-- Claim C2: for every input text longer than 4000 characters,
`summarize_with_gemini` truncates the text to its first 4000 characters
before constructing the outbound request, so the outbound request body
never contains more than 4000 characters of source text beyond the fixed
instruction text: whenever a prompt is sent it is exactly the instruction
followed by the 4000-character prefix of the input. -/
theorem claim_C2 (call : String → GeminiOutcome) (text : String)
    (h : text.length > 4000) :
    (∀ p, (summarize_with_gemini call text).sent = some p →
        p = instrText ++ pyTake 4000 text) ∧
    (pyTake 4000 text).length = 4000 ∧
    ∃ rest, text.data = (pyTake 4000 text).data ++ rest := by
  refine ⟨?_, ?_, ?_⟩
  · intro p hp
    unfold summarize_with_gemini at hp
    by_cases hs : pyStrip text = ""
    · rw [if_pos hs] at hp
      exact absurd hp (by simp)
    · rw [if_neg hs] at hp
      cases hc : call (instrText ++ pyTake 4000 text) with
      | ok r =>
        rw [hc] at hp
        exact (Option.some.injEq _ _ ▸ hp).symm
      | raises e =>
        rw [hc] at hp
        exact (Option.some.injEq _ _ ▸ hp).symm
  · show (text.data.take 4000).length = 4000
    have hd : text.length = text.data.length := rfl
    rw [List.length_take]
    omega
  · exact ⟨text.data.drop 4000, (List.take_append_drop 4000 text.data).symm⟩

set_option maxRecDepth 8000 in
/-- Witness for C2 at a concrete 4001-character input. -/
theorem claim_C2_witness :
    (String.mk (List.replicate 4001 'a')).length > 4000 ∧
    (summarize_with_gemini (fun _ => .ok ⟨true, "s"⟩)
        (String.mk (List.replicate 4001 'a'))).sent
      = some (instrText ++ pyTake 4000 (String.mk (List.replicate 4001 'a'))) ∧
    (pyTake 4000 (String.mk (List.replicate 4001 'a'))).length = 4000 ∧
    ∃ rest, (String.mk (List.replicate 4001 'a')).data
      = (pyTake 4000 (String.mk (List.replicate 4001 'a'))).data ++ rest := by
  have hlen : (String.mk (List.replicate 4001 'a')).length > 4000 := by
    show (List.replicate 4001 'a').length > 4000
    rw [List.length_replicate]
    omega
  have h := claim_C2 (fun _ => .ok ⟨true, "s"⟩) (String.mk (List.replicate 4001 'a')) hlen
  exact ⟨hlen, by rfl, h.2.1, h.2.2⟩

/-- Claim C3: on input that is empty or whitespace-only after trimming,
`summarize_with_gemini` returns the "nothing to summarize" sentinel and
issues no outbound call. -/
theorem claim_C3 (call : String → GeminiOutcome) (text : String)
    (h : pyStrip text = "") :
    summarize_with_gemini call text = ⟨"[No content to summarize]", none⟩ := by
  unfold summarize_with_gemini
  rw [if_pos h]

/-- Witness for C3 at the whitespace-only input. -/
theorem claim_C3_witness :
    pyStrip "   " = "" ∧
    summarize_with_gemini (fun _ => .raises "net down") "   "
      = ⟨"[No content to summarize]", none⟩ :=
  ⟨by decide, claim_C3 (fun _ => .raises "net down") "   " (by decide)⟩

/-- Claim C4: on a path with a supported image extension
(case-insensitive), when OCR yields no lines, `extract_text` returns the
"no text" sentinel and never the empty string. -/
theorem claim_C4 (o : ExtractOracle) (p : String)
    (himg : pyLower (splitextExt p) ∈ imageExts) (hocr : o.ocr = .ok []) :
    extract_text o p = "[No text]" ∧ extract_text o p ≠ "" := by
  have hx : extract_text o p = "[No text]" := by
    unfold extract_text
    rw [if_pos himg, hocr]
    rfl
  refine ⟨hx, ?_⟩
  rw [hx]
  decide

/-- Witness for C4 at a mixed-case image extension. -/
theorem claim_C4_witness :
    pyLower (splitextExt "scan.PnG") ∈ imageExts ∧
    (⟨.ok [], .ok []⟩ : ExtractOracle).ocr = .ok [] ∧
    extract_text ⟨.ok [], .ok []⟩ "scan.PnG" = "[No text]" ∧
    extract_text ⟨.ok [], .ok []⟩ "scan.PnG" ≠ "" :=
  ⟨by decide, rfl, (claim_C4 ⟨.ok [], .ok []⟩ "scan.PnG" (by decide) rfl).1,
   (claim_C4 ⟨.ok [], .ok []⟩ "scan.PnG" (by decide) rfl).2⟩

/-- Claim C5: neither `extract_text` nor `summarize_with_gemini` lets a
failure escape: a failure in either guarded block yields a string starting
with the error marker and carrying the exception's message, in place of
the extracted text or summary.  (Both functions are total in the
embedding; these equations give the exact error strings.) -/
theorem claim_C5 :
    (∀ (o : ExtractOracle) (p e : String), pyLower (splitextExt p) ∈ imageExts →
        o.ocr = .raises e →
        extract_text o p = "[Error extracting text: " ++ e ++ "]") ∧
    (∀ (o : ExtractOracle) (p e : String), pyLower (splitextExt p) ∉ imageExts →
        o.pdf = .raises e →
        extract_text o p = "[Error extracting text: " ++ e ++ "]") ∧
    (∀ (call : String → GeminiOutcome) (text e : String), pyStrip text ≠ "" →
        call (instrText ++ pyTake 4000 text) = .raises e →
        summarize_with_gemini call text =
          ⟨"[Gemini failed: " ++ e ++ "]", some (instrText ++ pyTake 4000 text)⟩) := by
  refine ⟨?_, ?_, ?_⟩
  · intro o p e himg hocr
    unfold extract_text
    rw [if_pos himg, hocr]
  · intro o p e himg hpdf
    unfold extract_text
    rw [if_neg himg, hpdf]
  · intro call text e hs hc
    unfold summarize_with_gemini
    rw [if_neg hs, hc]

/-- Witness for C5 at concrete failing oracles. -/
theorem claim_C5_witness :
    pyLower (splitextExt "a.jpg") ∈ imageExts ∧
    extract_text ⟨.raises "ocr crash", .ok []⟩ "a.jpg"
      = "[Error extracting text: " ++ "ocr crash" ++ "]" ∧
    pyLower (splitextExt "a.pdf") ∉ imageExts ∧
    extract_text ⟨.ok [], .raises "bad pdf"⟩ "a.pdf"
      = "[Error extracting text: " ++ "bad pdf" ++ "]" ∧
    pyStrip "report" ≠ "" ∧
    summarize_with_gemini (fun _ => .raises "quota") "report"
      = ⟨"[Gemini failed: " ++ "quota" ++ "]", some (instrText ++ pyTake 4000 "report")⟩ :=
  ⟨by decide, claim_C5.1 ⟨.raises "ocr crash", .ok []⟩ "a.jpg" "ocr crash" (by decide) rfl,
   by decide, claim_C5.2.1 ⟨.ok [], .raises "bad pdf"⟩ "a.pdf" "bad pdf" (by decide) rfl,
   by decide, claim_C5.2.2 (fun _ => .raises "quota") "report" "quota" (by decide) rfl⟩

/-- Claim C7: a path-mode request whose `file_path` does not exist returns
HTTP 400 with an `error` string containing the requested path, and performs
no extraction and no summarization. -/
theorem claim_C7 (fsExists : String → Bool) (call : String → GeminiOutcome)
    (san : String → String) (pathEx : ExtractOracle) (req : PyRequest) (fp : String)
    (hp : req.file_path = some fp) (hfs : fsExists fp = false) :
    (parse fsExists call san pathEx req).result =
      .ok (400, .obj [("error", .str ("File not found: " ++ fp))]) ∧
    (∃ a b, "File not found: " ++ fp = a ++ fp ++ b) ∧
    (parse fsExists call san pathEx req).extractedPaths = [] ∧
    (parse fsExists call san pathEx req).summaryInput = none ∧
    (parse fsExists call san pathEx req).promptSent = none := by
  refine ⟨?_, ⟨"File not found: ", "", (str_append_empty _).symm⟩, ?_, ?_, ?_⟩ <;>
    simp [parse, hp, hfs]

/-- Witness for C7 at a concrete missing path. -/
theorem claim_C7_witness :
    (⟨some "/data/x.pdf", []⟩ : PyRequest).file_path = some "/data/x.pdf" ∧
    (fun _ : String => false) "/data/x.pdf" = false ∧
    (parse (fun _ => false) (fun _ => .raises "q") (fun s => s) ⟨.ok [], .ok []⟩
        ⟨some "/data/x.pdf", []⟩).result =
      .ok (400, .obj [("error", .str ("File not found: " ++ "/data/x.pdf"))]) ∧
    (∃ a b, "File not found: " ++ "/data/x.pdf" = a ++ "/data/x.pdf" ++ b) ∧
    (parse (fun _ => false) (fun _ => .raises "q") (fun s => s) ⟨.ok [], .ok []⟩
        ⟨some "/data/x.pdf", []⟩).summaryInput = none := by
  have h := claim_C7 (fun _ => false) (fun _ => .raises "q") (fun s => s)
    ⟨.ok [], .ok []⟩ ⟨some "/data/x.pdf", []⟩ "/data/x.pdf" rfl rfl
  exact ⟨rfl, rfl, h.1, h.2.1, h.2.2.2.1⟩

/-- Claim C8: a request with neither a `file_path` form field nor uploaded
files returns HTTP 400 with the "no files or file_path" message. -/
theorem claim_C8 (fsExists : String → Bool) (call : String → GeminiOutcome)
    (san : String → String) (pathEx : ExtractOracle) (req : PyRequest)
    (hp : req.file_path = none) (hf : req.files = []) :
    (parse fsExists call san pathEx req).result =
      .ok (400, .obj [("error", .str "No files or file_path provided")]) := by
  simp [parse, hp, hf]

/-- Witness for C8 at the empty request. -/
theorem claim_C8_witness :
    (⟨none, []⟩ : PyRequest).file_path = none ∧
    (⟨none, []⟩ : PyRequest).files = [] ∧
    (parse (fun _ => false) (fun _ => .raises "q") (fun s => s) ⟨.ok [], .ok []⟩
        ⟨none, []⟩).result =
      .ok (400, .obj [("error", .str "No files or file_path provided")]) :=
  ⟨rfl, rfl, claim_C8 (fun _ => false) (fun _ => .raises "q") (fun s => s)
    ⟨.ok [], .ok []⟩ ⟨none, []⟩ rfl rfl⟩

/-- Counterexample to claim C1 as stated: in upload mode, when saving the
single uploaded file raises after the destination file has been created
(a failure of "the remaining processing"), the handler propagates the
exception and the saved file is still in the upload directory — it is not
deleted before the handler returns. -/
theorem claim_C1_counterexample :
    (parse (fun _ => false) (fun _ => .ok ⟨true, "SUM"⟩) (fun s => s) ⟨.ok [], .ok []⟩
        ⟨none, [⟨"a.png", .raiseAfterCreate, ⟨.ok ["T"], .ok []⟩⟩]⟩).savedFiles
      = ["./uploads/a.png"] ∧
    (parse (fun _ => false) (fun _ => .ok ⟨true, "SUM"⟩) (fun s => s) ⟨.ok [], .ok []⟩
        ⟨none, [⟨"a.png", .raiseAfterCreate, ⟨.ok ["T"], .ok []⟩⟩]⟩).result
      = .error () ∧
    ["./uploads/a.png"] ≠ ([] : List String) :=
  ⟨rfl, rfl, by decide⟩

/-- Claim C1 (amended): in upload mode, on every request in which each
uploaded file's save completes without raising, every file saved to the
upload directory is deleted before the request handler returns (extraction
failures are caught inside `extract_text`, so they cannot prevent the
deletion); when a save raises after creating the file, cleanup is not
guaranteed. -/
theorem claim_C1 (fsExists : String → Bool) (call : String → GeminiOutcome)
    (san : String → String) (pathEx : ExtractOracle) (req : PyRequest)
    (hp : req.file_path = none) (hok : ∀ f ∈ req.files, f.save = .ok) :
    (parse fsExists call san pathEx req).savedFiles = [] := by
  cases hf : req.files with
  | nil => simp [parse, hp, hf]
  | cons g rest =>
    have hok' : ∀ f ∈ g :: rest, f.save = .ok := by
      rw [hf] at hok
      exact hok
    have hrun := processFiles_ok san (g :: rest) "" [] [] hok'
    simp [parse, hp, hf, hrun]

/-- Witness for the amended C1: a concrete two-file upload whose saves
succeed leaves the upload directory empty, including when one file's
extraction fails. -/
theorem claim_C1_witness :
    (∀ f ∈ (⟨none, [⟨"a.png", .ok, ⟨.raises "ocr crash", .ok []⟩⟩,
        ⟨"b.pdf", .ok, ⟨.ok [], .ok ["Hello"]⟩⟩]⟩ : PyRequest).files, f.save = .ok) ∧
    (parse (fun _ => false) (fun _ => .ok ⟨true, "SUM"⟩) (fun s => s) ⟨.ok [], .ok []⟩
        ⟨none, [⟨"a.png", .ok, ⟨.raises "ocr crash", .ok []⟩⟩,
          ⟨"b.pdf", .ok, ⟨.ok [], .ok ["Hello"]⟩⟩]⟩).savedFiles = [] :=
  ⟨by decide, claim_C1 (fun _ => false) (fun _ => .ok ⟨true, "SUM"⟩) (fun s => s)
    ⟨.ok [], .ok []⟩ _ rfl (by decide)⟩

/-- Counterexample to claim C6 as stated: each appended section begins
with a newline before the `===` label, so for a single uploaded file the
combined buffer passed to the summarizer differs from the concatenation of
sections of the claimed shape. -/
theorem claim_C6_counterexample :
    (parse (fun _ => false) (fun _ => .ok ⟨true, "SUM"⟩) (fun s => s) ⟨.ok [], .ok []⟩
        ⟨none, [⟨"a.png", .ok, ⟨.ok ["T"], .ok []⟩⟩]⟩).summaryInput
      = some "\n=== a.png ===\nT\n" ∧
    "\n=== a.png ===\nT\n" ≠ "=== a.png ===\nT\n" :=
  ⟨rfl, by decide⟩

/-- Claim C6 (amended): in upload mode with all saves succeeding, the
combined buffer passed to the summarizer is the concatenation over the
files, in order, of a labeled section of exactly the shape
`"\n=== filename ===\n<text>\n"` (each section begins with a newline), and
the diagnostics entry under each sanitized filename records the length of
the extracted text of the last processed file bearing that name (that
file's own text length when sanitized names are distinct). -/
theorem claim_C6 (fsExists : String → Bool) (call : String → GeminiOutcome)
    (san : String → String) (pathEx : ExtractOracle) (req : PyRequest)
    (hp : req.file_path = none) (hne : req.files ≠ [])
    (hok : ∀ f ∈ req.files, f.save = .ok) :
    (parse fsExists call san pathEx req).summaryInput
      = some (concatStrs (req.files.map (sectionOf san))) ∧
    ∀ k, lookupD (parse fsExists call san pathEx req).diagnostics k
      = lastTextLen san k req.files := by
  cases hf : req.files with
  | nil => exact absurd hf hne
  | cons g rest =>
    have hok' : ∀ f ∈ g :: rest, f.save = .ok := by
      rw [hf] at hok
      exact hok
    have hrun := processFiles_ok san (g :: rest) "" [] [] hok'
    constructor
    · simp [parse, hp, hf, hrun, str_empty_append]
    · intro k
      simp only [parse, hp, hf, hrun]
      simp
      exact lookupD_foldDiag_nil san k (g :: rest)

/-- Witness for the amended C6 at a concrete two-file upload. -/
theorem claim_C6_witness :
    (⟨none, [⟨"a.png", .ok, ⟨.ok ["T"], .ok []⟩⟩,
        ⟨"b.pdf", .ok, ⟨.ok [], .ok ["Hello"]⟩⟩]⟩ : PyRequest).files ≠ [] ∧
    (∀ f ∈ (⟨none, [⟨"a.png", .ok, ⟨.ok ["T"], .ok []⟩⟩,
        ⟨"b.pdf", .ok, ⟨.ok [], .ok ["Hello"]⟩⟩]⟩ : PyRequest).files, f.save = .ok) ∧
    (parse (fun _ => false) (fun _ => .ok ⟨true, "SUM"⟩) (fun s => s) ⟨.ok [], .ok []⟩
        ⟨none, [⟨"a.png", .ok, ⟨.ok ["T"], .ok []⟩⟩,
          ⟨"b.pdf", .ok, ⟨.ok [], .ok ["Hello"]⟩⟩]⟩).summaryInput
      = some (concatStrs ((⟨none, [⟨"a.png", .ok, ⟨.ok ["T"], .ok []⟩⟩,
          ⟨"b.pdf", .ok, ⟨.ok [], .ok ["Hello"]⟩⟩]⟩ : PyRequest).files.map
            (sectionOf (fun s => s)))) ∧
    lookupD (parse (fun _ => false) (fun _ => .ok ⟨true, "SUM"⟩) (fun s => s)
        ⟨.ok [], .ok []⟩ ⟨none, [⟨"a.png", .ok, ⟨.ok ["T"], .ok []⟩⟩,
          ⟨"b.pdf", .ok, ⟨.ok [], .ok ["Hello"]⟩⟩]⟩).diagnostics "b.pdf"
      = lastTextLen (fun s => s) "b.pdf"
          (⟨none, [⟨"a.png", .ok, ⟨.ok ["T"], .ok []⟩⟩,
            ⟨"b.pdf", .ok, ⟨.ok [], .ok ["Hello"]⟩⟩]⟩ : PyRequest).files ∧
    lastTextLen (fun s => s) "b.pdf"
        (⟨none, [⟨"a.png", .ok, ⟨.ok ["T"], .ok []⟩⟩,
          ⟨"b.pdf", .ok, ⟨.ok [], .ok ["Hello"]⟩⟩]⟩ : PyRequest).files = some 5 := by
  have h := claim_C6 (fun _ => false) (fun _ => .ok ⟨true, "SUM"⟩) (fun s => s)
    ⟨.ok [], .ok []⟩ ⟨none, [⟨"a.png", .ok, ⟨.ok ["T"], .ok []⟩⟩,
      ⟨"b.pdf", .ok, ⟨.ok [], .ok ["Hello"]⟩⟩]⟩ rfl (by decide) (by decide)
  exact ⟨by decide, by decide, h.1, h.2 "b.pdf", rfl⟩

/-- Claim C9: whenever an upload-mode request reaches the summarizer, the
combined text it receives strips to a nonempty string (the section labels
contain `===`), so the "no content to summarize" short-circuit branch is
unreachable in upload mode — a remote call is always issued — even when
every file's extracted text is empty. -/
theorem claim_C9 (fsExists : String → Bool) (call : String → GeminiOutcome)
    (san : String → String) (pathEx : ExtractOracle) (req : PyRequest) (t : String)
    (hp : req.file_path = none)
    (ht : (parse fsExists call san pathEx req).summaryInput = some t) :
    pyStrip t ≠ "" ∧
    (parse fsExists call san pathEx req).promptSent
      = some (instrText ++ pyTake 4000 t) := by
  cases hf : req.files with
  | nil => simp [parse, hp, hf] at ht
  | cons g rest =>
    by_cases hr : (processFiles san (g :: rest) [] "" [] []).raised = true
    · simp [parse, hp, hf, hr] at ht
    · have hr' : (processFiles san (g :: rest) [] "" [] []).raised = false := by
        simpa using hr
      have hok := processFiles_no_raise_all_ok san (g :: rest) [] "" [] [] hr'
      have hrun := processFiles_ok san (g :: rest) "" [] [] hok
      have hne : pyStrip ("" ++ concatStrs (List.map (sectionOf san) (g :: rest))) ≠ "" := by
        apply pyStrip_ne_empty (c := '=')
        · rw [str_empty_append, List.map_cons]
          show '=' ∈ (sectionOf san g ++ concatStrs (List.map (sectionOf san) rest)).data
          rw [strData_append]
          exact List.mem_append_left _ (eq_char_mem_sectionStr (san g.filename) (textOf san g))
        · decide
      have ht' : "" ++ concatStrs (List.map (sectionOf san) (g :: rest)) = t := by
        have := ht
        simp only [parse, hp, hf, hrun] at this
        simpa using this
      subst ht'
      refine ⟨hne, ?_⟩
      simp only [parse, hp, hf, hrun]
      simp only [LoopOut.raised, Bool.false_eq_true, if_false]
      exact summarize_sent_of_ne call _ hne

/-- Witness for C9: a one-file upload whose extracted text is empty still
reaches the remote call with a non-blank combined buffer. -/
theorem claim_C9_witness :
    (parse (fun _ => false) (fun _ => .ok ⟨true, "SUM"⟩) (fun s => s) ⟨.ok [], .ok []⟩
        ⟨none, [⟨"b.pdf", .ok, ⟨.ok [], .ok []⟩⟩]⟩).summaryInput
      = some "\n=== b.pdf ===\n\n" ∧
    pyStrip "\n=== b.pdf ===\n\n" ≠ "" ∧
    (parse (fun _ => false) (fun _ => .ok ⟨true, "SUM"⟩) (fun s => s) ⟨.ok [], .ok []⟩
        ⟨none, [⟨"b.pdf", .ok, ⟨.ok [], .ok []⟩⟩]⟩).promptSent
      = some (instrText ++ pyTake 4000 "\n=== b.pdf ===\n\n") := by
  have h := claim_C9 (fun _ => false) (fun _ => .ok ⟨true, "SUM"⟩) (fun s => s)
    ⟨.ok [], .ok []⟩ ⟨none, [⟨"b.pdf", .ok, ⟨.ok [], .ok []⟩⟩]⟩
    "\n=== b.pdf ===\n\n" rfl rfl
  exact ⟨rfl, h.1, h.2⟩

/-- Claim C10: in upload mode the diagnostics dict is keyed by sanitized
filename, so its keys are distinct and each key's entry is the last
processed file's extracted-text length, while every file's section is
still appended to the combined buffer; when two files sanitize to the same
name the dict has strictly fewer entries than there are files. -/
theorem claim_C10 (fsExists : String → Bool) (call : String → GeminiOutcome)
    (san : String → String) (pathEx : ExtractOracle) (req : PyRequest)
    (hp : req.file_path = none) (hok : ∀ f ∈ req.files, f.save = .ok)
    (hdup : ¬ (req.files.map (fun f => san f.filename)).Nodup) :
    ((parse fsExists call san pathEx req).diagnostics.map Prod.fst).Nodup ∧
    (∀ k, lookupD (parse fsExists call san pathEx req).diagnostics k
      = lastTextLen san k req.files) ∧
    (parse fsExists call san pathEx req).summaryInput
      = some (concatStrs (req.files.map (sectionOf san))) ∧
    (parse fsExists call san pathEx req).diagnostics.length < req.files.length := by
  cases hf : req.files with
  | nil =>
    rw [hf] at hdup
    simp at hdup
  | cons g rest =>
    have hok' : ∀ f ∈ g :: rest, f.save = .ok := by
      rw [hf] at hok
      exact hok
    have hrun := processFiles_ok san (g :: rest) "" [] [] hok'
    have hdup' : ¬ ((g :: rest).map (fun f => san f.filename)).Nodup := by
      rw [hf] at hdup
      exact hdup
    refine ⟨?_, ?_, ?_, ?_⟩
    · simp only [parse, hp, hf, hrun]
      simp
      exact nodup_keys_foldDiag san (g :: rest) [] (by simp)
    · intro k
      simp only [parse, hp, hf, hrun]
      simp
      exact lookupD_foldDiag_nil san k (g :: rest)
    · simp [parse, hp, hf, hrun, str_empty_append]
    · simp only [parse, hp, hf, hrun]
      simp
      have := length_foldDiag_lt_of_dup san (g :: rest) [] hdup'
      simpa using this

/-- Witness for C10: two uploads that sanitize to the same filename yield
one diagnostics entry carrying the second file's text length, while both
sections reach the combined buffer. -/
theorem claim_C10_witness :
    ¬ ((⟨none, [⟨"a.png", .ok, ⟨.ok ["x"], .ok []⟩⟩,
        ⟨"a.png", .ok, ⟨.ok ["yy"], .ok []⟩⟩]⟩ : PyRequest).files.map
          (fun f => (fun s => s) f.filename)).Nodup ∧
    ((parse (fun _ => false) (fun _ => .ok ⟨true, "SUM"⟩) (fun s => s) ⟨.ok [], .ok []⟩
        ⟨none, [⟨"a.png", .ok, ⟨.ok ["x"], .ok []⟩⟩,
          ⟨"a.png", .ok, ⟨.ok ["yy"], .ok []⟩⟩]⟩).diagnostics.map Prod.fst).Nodup ∧
    lookupD (parse (fun _ => false) (fun _ => .ok ⟨true, "SUM"⟩) (fun s => s)
        ⟨.ok [], .ok []⟩ ⟨none, [⟨"a.png", .ok, ⟨.ok ["x"], .ok []⟩⟩,
          ⟨"a.png", .ok, ⟨.ok ["yy"], .ok []⟩⟩]⟩).diagnostics "a.png" = some 2 ∧
    (parse (fun _ => false) (fun _ => .ok ⟨true, "SUM"⟩) (fun s => s) ⟨.ok [], .ok []⟩
        ⟨none, [⟨"a.png", .ok, ⟨.ok ["x"], .ok []⟩⟩,
          ⟨"a.png", .ok, ⟨.ok ["yy"], .ok []⟩⟩]⟩).summaryInput
      = some "\n=== a.png ===\nx\n\n=== a.png ===\nyy\n" ∧
    (parse (fun _ => false) (fun _ => .ok ⟨true, "SUM"⟩) (fun s => s) ⟨.ok [], .ok []⟩
        ⟨none, [⟨"a.png", .ok, ⟨.ok ["x"], .ok []⟩⟩,
          ⟨"a.png", .ok, ⟨.ok ["yy"], .ok []⟩⟩]⟩).diagnostics.length < 2 := by
  have h := claim_C10 (fun _ => false) (fun _ => .ok ⟨true, "SUM"⟩) (fun s => s)
    ⟨.ok [], .ok []⟩ ⟨none, [⟨"a.png", .ok, ⟨.ok ["x"], .ok []⟩⟩,
      ⟨"a.png", .ok, ⟨.ok ["yy"], .ok []⟩⟩]⟩ rfl (by decide) (by decide)
  refine ⟨by decide, h.1, ?_, rfl, h.2.2.2⟩
  rw [h.2.1 "a.png"]
  rfl
